import Mathlib

/-!
Verification development for the typedown-markdown-editor repository.

The repository is a VS Code extension embedding a CKEditor-based WYSIWYG
markdown editor in a webview.  The relevant source files are
`src/markdownEditorInitScript.js` (the webview-side script: content
synchronizer, table converter, code-block boundary navigation) and the
provider (`MarkdownEditorProvider`): the document bridge between the durable
text buffer and the webview.

Each definition below is a shallow embedding of a function of the source;
the doc comment names the source symbol it embeds.  Parts of the system that
live in external collaborators (the CKEditor engine, the browser DOM) are
modelled explicitly where a claim needs them, with a doc comment starting
`Modelled from the spec:`.
-/

/-! ## String helpers -/

/-- Embeds the JavaScript `text.replace(/(?:\r\n|\r|\n)/g, eol)` idiom used
both by `updateWebview` (with `"\n"`) and by `updateTextDocument` (with the
buffer's configured EOL): every `\r\n`, lone `\r` or lone `\n` is replaced by
`eol`, scanning left to right. -/
def replaceEolsAux (eol : List Char) : List Char → List Char
  | [] => []
  | '\r' :: '\n' :: rest => eol ++ replaceEolsAux eol rest
  | '\r' :: rest => eol ++ replaceEolsAux eol rest
  | '\n' :: rest => eol ++ replaceEolsAux eol rest
  | c :: rest => c :: replaceEolsAux eol rest

/-- EOL replacement at the string level. -/
def replaceEols (eol : String) (s : String) : String :=
  String.mk (replaceEolsAux eol.toList s.toList)

/-- `text.replace(/(?:\r\n|\r|\n)/g, '\n')` — normalization to `\n` as used by
`updateWebview`. -/
def normalizeEol (s : String) : String :=
  replaceEols "\n" s

/-- Auxiliary for `containsSub`: substring occurrence by scanning. -/
def containsSubAux (pat : List Char) : List Char → Bool
  | [] => pat.isEmpty
  | c :: cs => pat.isPrefixOf (c :: cs) || containsSubAux pat cs

/-- Embeds JavaScript `s.includes(pat)` (case-sensitive substring test). -/
def containsSub (s pat : String) : Bool :=
  containsSubAux pat.toList s.toList

/-- Embeds JavaScript `String.prototype.trim`: strip leading and trailing
whitespace. -/
def jsTrim (s : String) : String :=
  String.mk (((s.toList.dropWhile Char.isWhitespace).reverse.dropWhile
    Char.isWhitespace).reverse)

/-- Auxiliary for `collapseWs`: the `Bool` tracks whether the previous
character was whitespace (so a run contributes a single space). -/
def collapseWsAux : Bool → List Char → List Char
  | _, [] => []
  | prev, c :: cs =>
    if c.isWhitespace then
      if prev then collapseWsAux true cs else ' ' :: collapseWsAux true cs
    else c :: collapseWsAux false cs

/-- Embeds `cellText.replace(/\s+/g, ' ')`: every maximal run of whitespace
becomes one space. -/
def collapseWs (s : String) : String :=
  String.mk (collapseWsAux false s.toList)

/-- Embeds `cellText.replace(/\|/g, '\\|')`: escape pipe characters. -/
def escapePipes (s : String) : String :=
  String.mk (s.toList.foldr
    (fun c acc => if c = '|' then '\\' :: '|' :: acc else c :: acc) [])

/-! ## Table Converter (`convertTableToMarkdown`, `htmlTableToMarkdown`)

`convertTableToMarkdown` in the source reads the cell text of each `<tr>` of
the table's DOM; the embedding takes that extracted grid — a list of rows,
each a list of raw cell text strings — and reproduces the emission logic
verbatim.  The DOM extraction itself (`querySelectorAll`, `textContent`) is
a browser capability, modelled below by `parseTableRows`. -/

/-- Per-cell processing from `convertTableToMarkdown`: `trim()`, then
`replace(/\s+/g, ' ')`, then `replace(/\|/g, '\\|')`. -/
def processCellText (s : String) : String :=
  escapePipes (collapseWs (jsTrim s))

/-- The cell loop of `convertTableToMarkdown`: for `i` in
`0 .. maxColumns - 1`, take cell `i` of the row if it exists and process its
text, else push the empty string (`cells.push(cellText || '')` — an empty
string, never a placeholder). -/
def padRow (maxColumns : Nat) (row : List String) : List String :=
  (List.range maxColumns).map (fun i =>
    match row[i]? with
    | some cell => processCellText cell
    | none => "")

/-- The first pass of `convertTableToMarkdown`: the maximum number of cells
across all rows (starting from `0`, keeping each larger count). -/
def maxColumnsOf (rows : List (List String)) : Nat :=
  rows.foldl (fun m r => max m r.length) 0

/-- `'| ' + cells.join(' | ') + ' |'`. -/
def mkRowLine (cells : List String) : String :=
  "| " ++ String.intercalate " | " cells ++ " |"

/-- Embeds `convertTableToMarkdown` over the extracted cell grid: empty
tables and zero-column tables yield `''`; otherwise one row line per `<tr>`
(cells padded to `maxColumns`), with the `| --- | ... |` separator inserted
immediately after row 0 (built from that row's `cells.map(() => '---')`),
all joined by newlines and wrapped in leading/trailing newlines. -/
def convertTableToMarkdown (trRows : List (List String)) : String :=
  if trRows.length = 0 then ""
  else
    let maxColumns := maxColumnsOf trRows
    if maxColumns = 0 then ""
    else
      let rowLines := (trRows.enum.map (fun p =>
        let cells := padRow maxColumns p.2
        if cells.length > 0 then
          if p.1 = 0 then
            [mkRowLine cells, mkRowLine (cells.map (fun _ => "---"))]
          else [mkRowLine cells]
        else [])).flatten
      "\n" ++ String.intercalate "\n" rowLines ++ "\n"

/-- Case-insensitive prefix test over character lists (the source's table
regex carries the `i` flag). -/
def isPrefixOfCi : List Char → List Char → Bool
  | [], _ => true
  | _ :: _, [] => false
  | p :: ps, c :: cs => (p.toLower = c.toLower) && isPrefixOfCi ps cs

/-- Index of the first case-insensitive occurrence of `pat`, if any. -/
def findCi (pat : List Char) : List Char → Option Nat
  | [] => if isPrefixOfCi pat [] then some 0 else none
  | c :: cs =>
    if isPrefixOfCi pat (c :: cs) then some 0
    else (findCi pat cs).map (· + 1)

/-- Drop characters up to and including the first `'>'` (models the DOM/regex
step past an opening tag). -/
def dropThroughGt : List Char → List Char
  | [] => []
  | '>' :: rest => rest
  | _ :: rest => dropThroughGt rest

/-- Take characters up to the first case-insensitive occurrence of `pat`
(everything, if it does not occur). -/
def takeUntilCi (pat : List Char) (cs : List Char) : List Char :=
  match findCi pat cs with
  | none => cs
  | some i => cs.take i

/-- Minimum of two optional indices (earliest occurrence wins). -/
def minOpt : Option Nat → Option Nat → Option Nat
  | none, b => b
  | some x, none => some x
  | some x, some y => some (min x y)

/-- Modelled from the spec: the DOM `textContent` of an HTML fragment — tag
markup stripped, text kept.  (The source reads `cell.textContent` and
re-parses it through a temporary element to decode entities; entity decoding
of plain text is the identity here.) -/
def stripTags : Nat → List Char → List Char
  | 0, _ => []
  | _, [] => []
  | fuel + 1, '<' :: rest => stripTags fuel (dropThroughGt rest)
  | fuel + 1, c :: rest => c :: stripTags fuel rest

/-- Start index of the next `<td`/`<th` cell (case-insensitive), as in
`tr.querySelectorAll('td, th')`. -/
def cellStart (cs : List Char) : Option Nat :=
  minOpt (findCi "<td".toList cs) (findCi "<th".toList cs)

/-- Modelled from the spec: DOM extraction of the cell texts of one row —
each `<td>`/`<th>` contributes its `textContent`, ending at its closing tag
or at the next cell. -/
def extractCells : Nat → List Char → List String
  | 0, _ => []
  | fuel + 1, cs =>
    match cellStart cs with
    | none => []
    | some i =>
      let content0 := dropThroughGt ((cs.drop i).drop 3)
      let stop := minOpt (minOpt (findCi "</td>".toList content0)
        (findCi "</th>".toList content0)) (cellStart content0)
      let content := match stop with
        | none => content0
        | some j => content0.take j
      let rest := match stop with
        | none => []
        | some j => content0.drop j
      String.mk (stripTags content.length content) :: extractCells fuel rest

/-- Modelled from the spec: DOM extraction of the `<tr>` rows of a table
fragment, each row carrying its cell texts. -/
def extractRows : Nat → List Char → List (List String)
  | 0, _ => []
  | fuel + 1, cs =>
    match findCi "<tr".toList cs with
    | none => []
    | some i =>
      let rowBody0 := dropThroughGt ((cs.drop i).drop 3)
      let stop := findCi "</tr>".toList rowBody0
      let rowBody := match stop with
        | none => rowBody0
        | some j => rowBody0.take j
      let rest := match stop with
        | none => []
        | some j => rowBody0.drop j
      extractCells rowBody.length rowBody :: extractRows fuel rest

/-- Modelled from the spec: the DOM parsing step of `convertTableToMarkdown`
(`table.querySelector('tbody') || table`, then `querySelectorAll('tr')`):
rows are searched inside the `<tbody>` when one is present, else in the
whole fragment. -/
def parseTableRows (m : String) : List (List String) :=
  let cs := m.toList
  let scope := match findCi "<tbody".toList cs with
    | none => cs
    | some i => takeUntilCi "</tbody>".toList (dropThroughGt ((cs.drop i).drop 6))
  extractRows scope.length scope

/-- The regex-replacement callback of `htmlTableToMarkdown`: re-parse the
matched fragment and convert it (the modelled parse of a fragment that
begins with `<table` always finds the table element, so the
`if (!table) return match` guard of the source does not fire here). -/
def convertMatchedTable (m : String) : String :=
  convertTableToMarkdown (parseTableRows m)

/-- Embeds `html.replace(/<table[^>]*>([\s\S]*?)<\/table>/gi, ...)`: find
each case-insensitive `<table`, its opening tag's first `'>'` and the first
subsequent `</table>` (the lazy body), replace the whole match by
`convertMatchedTable`, and continue after it; when the opening tag never
closes or no `</table>` follows, no further match exists and the remaining
text is kept as is. -/
def replaceTablesAux : Nat → List Char → List Char
  | 0, cs => cs
  | fuel + 1, cs =>
    match findCi "<table".toList cs with
    | none => cs
    | some i =>
      let pre := cs.take i
      let fromTable := cs.drop i
      let afterName := fromTable.drop 6
      match afterName.findIdx? (fun c => c = '>') with
      | none => cs
      | some j =>
        match findCi "</table>".toList (afterName.drop (j + 1)) with
        | none => cs
        | some k =>
          let matchLen := 6 + (j + 1) + k + 8
          let matched := fromTable.take matchLen
          let rest := fromTable.drop matchLen
          pre ++ (convertMatchedTable (String.mk matched)).toList
            ++ replaceTablesAux fuel rest

/-- The table branch of `htmlTableToMarkdown` at the string level. -/
def replaceHtmlTables (html : String) : String :=
  String.mk (replaceTablesAux html.length html.toList)

/-- Embeds `htmlTableToMarkdown`: falsy or table-free input is returned
unchanged (`!html || !html.includes('<table')`), otherwise each matched
table is replaced by its markdown conversion. -/
def htmlTableToMarkdown (html : String) : String :=
  if html = "" then html
  else if containsSub html "<table" then replaceHtmlTables html
  else html

/-! ## Document Bridge (`MarkdownEditorProvider.resolveCustomTextEditor`) -/

/-- The Document Bridge's mutable state: the in-flight flag
`isUpdatingFromWebview.value` and the last-pushed snapshot
`lastWebviewContent`. -/
structure Bridge where
  isUpdatingFromWebview : Bool
  lastWebviewContent : String
deriving DecidableEq, Repr

/-- Embeds `updateWebview` (provider side): normalizes the document text to
`\n`; if the in-flight flag is set and the normalized text equals the
normalized snapshot, clears the flag and posts nothing; otherwise posts a
`documentChanged` message carrying the normalized text and clears the flag.
The returned `Option String` is the posted `documentChanged` payload. -/
def updateWebview (b : Bridge) (docText : String) : Bridge × Option String :=
  let normalizedText := normalizeEol docText
  if b.isUpdatingFromWebview = true ∧ normalizedText = normalizeEol b.lastWebviewContent then
    ({ b with isUpdatingFromWebview := false }, none)
  else
    ({ b with isUpdatingFromWebview := false }, some normalizedText)

/-- Embeds the `onDidSaveTextDocument` subscription body (for a save of the
synced document itself): if the in-flight flag is not set, run
`updateWebview`; otherwise only clear the flag and post nothing. -/
def onDidSaveTextDocument (b : Bridge) (docText : String) : Bridge × Option String :=
  if b.isUpdatingFromWebview = false then
    updateWebview b docText
  else
    ({ b with isUpdatingFromWebview := false }, none)

/-- Claim C1 exactly as stated: suppression happens iff the in-flight flag is
set AND the normalized saved text equals the normalized snapshot; in every
other case the normalized buffer text is pushed. -/
def claimC1Statement : Prop :=
  ∀ (b : Bridge) (docText : String),
    ((onDidSaveTextDocument b docText).2 = none
      ↔ (b.isUpdatingFromWebview = true
          ∧ normalizeEol docText = normalizeEol b.lastWebviewContent))
    ∧ ((onDidSaveTextDocument b docText).2 ≠ none →
        (onDidSaveTextDocument b docText).2 = some (normalizeEol docText))

/-! ## `updateTextDocument` (provider side) -/

/-- Embeds `MarkdownEditorProvider.updateTextDocument`.  Arguments: the
durable buffer's current text, its configured EOL (`2` denotes CRLF, any
other value LF), the outgoing text from the webview, and the in-flight flag.
Result: the buffer text afterwards, the in-flight flag after completion
(every branch eventually clears it: immediately on the empty-text/identical
branches, after the post-edit delay otherwise), and whether a workspace edit
was applied. -/
def updateTextDocument (docText : String) (eol : Nat) (text : String) (_flagIn : Bool) :
    String × Bool × Bool :=
  if text = "" then
    (docText, false, false)
  else
    let eolChars := if eol = 2 then "\r\n" else "\n"
    let t := replaceEols eolChars text
    if t ≠ docText then
      (t, false, true)
    else
      (docText, false, false)

/-! ## Webview content synchronizer (`markdownEditorInitScript.js`) -/

/-- The webview-side state: `editor.suppressNextDataChangeEvent`, the global
`initializedFlag`, the editor's materialized data (`editor.getData()`), an
abstract token for the rich model's selection, `editor.savedData`, the
undo-history entry count, and `editor.dirty`.  `undoEntries` is a capability
of the external editor engine, Modelled from the spec: a raw structural load
(`setData` on a fresh model) yields exactly one undo-history entry, while a
content merge into existing history appends an entry. -/
structure WV where
  suppressNextDataChangeEvent : Bool
  initializedFlag : Bool
  editorData : String
  selection : Nat
  savedData : Option String
  undoEntries : Nat
  dirty : Bool
deriving DecidableEq, Repr

/-- Embeds the first branch of `setEditorContent` (`!initializedFlag`): a raw
`editor.setData(text)` load, setting `initializedFlag` and returning before
the `savedData` bookkeeping; no selection capture or restore happens.  The
`Bool` result records whether the model fired a `change:data` notification
(a raw load does). -/
def rawLoad (s : WV) (text : String) : WV × Bool :=
  ({ s with editorData := text, initializedFlag := true, undoEntries := 1 }, true)

/-- Embeds the initialized branches of `setEditorContent`: if
`editor.getData() != text`, capture the selection, `setData(text)` and
restore the selection (restoration with its fallback is modelled abstractly
as leaving the selection token unchanged; the fallback itself is embedded
separately as `selectionFallback`), then record `savedData`; the model fires
one `change:data` notification.  Otherwise only record `savedData`: the
model is untouched and fires nothing. -/
def compareThenReplace (s : WV) (text : String) : WV × Bool :=
  if s.editorData ≠ text then
    ({ s with editorData := text, undoEntries := s.undoEntries + 1,
              savedData := some text }, true)
  else
    ({ s with savedData := some s.editorData }, false)

/-- Embeds `setEditorContent`: dispatches between the raw first load and the
compare-then-replace path on `initializedFlag`. -/
def setEditorContent (s : WV) (text : String) : WV × Bool :=
  if s.initializedFlag = false then rawLoad s text else compareThenReplace s text

/-- Embeds the `documentChanged` message case: sets
`editor.suppressNextDataChangeEvent = true`, then runs `setEditorContent`. -/
def handleDocumentChanged (s : WV) (text : String) : WV × Bool :=
  setEditorContent { s with suppressNextDataChangeEvent := true } text

/-- Embeds the `change:data` listener: if `suppressNextDataChangeEvent` is
set, clear it and post nothing; otherwise take `editor.getData()`, run it
through `htmlTableToMarkdown` when it contains `<table`, post it as a
`webviewChanged` message (the `Option String` result) and set
`editor.dirty`. -/
def onChangeData (s : WV) : WV × Option String :=
  if s.suppressNextDataChangeEvent = true then
    ({ s with suppressNextDataChangeEvent := false }, none)
  else
    let data := s.editorData
    let data2 := if containsSub data "<table" then htmlTableToMarkdown data else data
    ({ s with dirty := true }, some data2)

/-- A genuine user edit in the rich editor: the materialized data changes
(the engine then fires a `change:data` notification, embedded as a
subsequent `onChangeData` call). -/
def applyUserEdit (s : WV) (newData : String) : WV :=
  { s with editorData := newData }

/-! ## Cursor preservation fallback (`setEditorContent` catch branch) -/

/-- Where the model's selection ends up after the fallback. -/
inductive SelPlacement where
  | afterElem (name : String)
  | cleared
deriving DecidableEq, Repr

/-- Modelled from the spec: the engine's `getRoot().getChild(index)` — the
child at `index`, or null when the index is out of range (in particular for
`childCount - 1 = -1` on an empty root). -/
def getChildAt (children : List String) (i : Int) : Option String :=
  if i < 0 then none else children[i.toNat]?

/-- Modelled from the spec: the engine's `writer.setSelection(target,
'after')` capability — places the selection after the target element; a null
target removes all selection ranges without throwing. -/
def setSelectionAfter (target : Option String) : Except String SelPlacement :=
  match target with
  | some e => Except.ok (SelPlacement.afterElem e)
  | none => Except.ok SelPlacement.cleared

/-- Embeds the catch branch of `setEditorContent`:
`lastElement = root.getChild(root.childCount - 1)` followed by
`writer.setSelection(lastElement, 'after')`.  The `Except` result records
whether the fallback itself can throw. -/
def selectionFallback (children : List String) : Except String SelPlacement :=
  let lastElement := getChildAt children ((children.length : Int) - 1)
  setSelectionAfter lastElement

/-! ## Boundary navigation (`ArrowDown` keystroke handler) -/

/-- The per-keystroke context the `ArrowDown` handler reads, Modelled from
the spec where it concerns the engine: the cursor position offset and the
code-block range's start/end offsets (`model.createRangeIn(codeBlock)` —
containment is strict: strictly after the start and strictly before the
end), the concatenated `item.data` text from the cursor to the block end
(`textAfter`), the names of the document root's children, and
`children.indexOf(codeBlock)` (`-1` when the block is not a direct root
child). -/
structure ArrowDownInput where
  posOffset : Int
  blockStart : Int
  blockEnd : Int
  textAfter : String
  rootChildren : List String
  codeBlockIndex : Int
deriving DecidableEq, Repr

/-- Outcome of one `ArrowDown` keystroke: relocate the cursor to the given
offset of the next sibling (`writer.setSelection(nextElement, 0)`), insert a
new empty paragraph after the block with the cursor at its offset 0, or fall
through to the default key behavior (the handler did not call `cancel()`).
The first two outcomes consume the event. -/
inductive ADResult where
  | moveToNext (name : String) (offset : Nat)
  | insertParagraphAfter
  | defaultBehavior
deriving DecidableEq, Repr

/-- Embeds the `ArrowDown` keystroke handler (source lines 347–465): the
outer guard is `containsPosition || isAtEnd`; `shouldExit` is true when at
or past the end, or else when no `'\n'` remains in the text to the block end
AND (the distance to the end is at most 3, or only whitespace remains);
on exit, move to the next root child when `0 <= index < childCount - 1`,
else insert a paragraph after the block; otherwise do nothing (default). -/
def arrowDownHandler (c : ArrowDownInput) : ADResult :=
  if (c.blockStart < c.posOffset ∧ c.posOffset < c.blockEnd) ∨ c.blockEnd ≤ c.posOffset then
    if (if c.blockEnd ≤ c.posOffset ∨ c.blockEnd - c.posOffset ≤ 0 then
          true
        else
          (!(c.textAfter.toList.contains '\n'))
            && (decide (c.blockEnd - c.posOffset ≤ 3)
                || decide (jsTrim c.textAfter = ""))) then
      if 0 ≤ c.codeBlockIndex ∧ c.codeBlockIndex < (c.rootChildren.length : Int) - 1 then
        ADResult.moveToNext (c.rootChildren.getD (c.codeBlockIndex + 1).toNat "") 0
      else
        ADResult.insertParagraphAfter
    else
      ADResult.defaultBehavior
  else
    ADResult.defaultBehavior

/-- Claim C7 exactly as stated: with the cursor inside the region and
at-or-near its end — within the tolerance window, or with no non-whitespace
content remaining to the region's end — the handler relocates to offset 0 of
the next sibling if one exists, else inserts a paragraph, consuming the
event. -/
def claimC7Statement : Prop :=
  ∀ c : ArrowDownInput,
    (c.blockStart < c.posOffset ∧ c.posOffset < c.blockEnd) →
    (c.blockEnd - c.posOffset ≤ 3 ∨ jsTrim c.textAfter = "") →
    arrowDownHandler c =
      (if 0 ≤ c.codeBlockIndex ∧ c.codeBlockIndex < (c.rootChildren.length : Int) - 1 then
        ADResult.moveToNext (c.rootChildren.getD (c.codeBlockIndex + 1).toNat "") 0
      else ADResult.insertParagraphAfter)

/-! # Theorems -/

/-- Claim C1, counterexample: with the in-flight flag set and saved text
`"a"` differing from the snapshot `"b"`, the save handler still suppresses
(posts nothing), though the claim demands a push in that case. -/
theorem c1_save_suppression_counterexample : ¬ claimC1Statement := by
  intro h
  have h2 := (h ⟨true, "b"⟩ "a").1
  have h3 := h2.mp (by decide)
  exact absurd h3.2 (by decide)

/-- Claim C1, amended: on a save notification the bridge suppresses
re-pushing exactly when the in-flight flag is set, regardless of whether the
saved text matches the snapshot (the snapshot comparison inside
`updateWebview` is unreachable on the save path); when the flag is clear it
always pushes the buffer's EOL-normalized text.  The flag is clear
afterwards in both cases. -/
theorem c1_save_suppression_amended : ∀ (last text : String),
    onDidSaveTextDocument ⟨true, last⟩ text = (⟨false, last⟩, none)
    ∧ onDidSaveTextDocument ⟨false, last⟩ text
        = (⟨false, last⟩, some (normalizeEol text)) := by
  intro last text
  constructor
  · simp [onDidSaveTextDocument]
  · simp [onDidSaveTextDocument, updateWebview]

/-- `setEditorContent` never touches `suppressNextDataChangeEvent` (only the
`change:data` listener and the `documentChanged` case write it). -/
theorem setEditorContent_suppress_preserved (s : WV) (text : String) :
    (setEditorContent s text).1.suppressNextDataChangeEvent
      = s.suppressNextDataChangeEvent := by
  unfold setEditorContent rawLoad compareThenReplace
  split
  · rfl
  · split <;> rfl

/-- Claim C2: handling one `documentChanged` message (one `applyIncoming`)
immediately followed by the model's own `change:data` notification produces
no outgoing `webviewChanged` emission; the suppress-echo state consumes
exactly that one notification and returns to idle — a second notification
would emit again. -/
theorem c2_echo_suppression : ∀ (s : WV) (text : String),
    (onChangeData (handleDocumentChanged s text).1).2 = none
    ∧ (onChangeData (handleDocumentChanged s text).1).1.suppressNextDataChangeEvent = false
    ∧ (onChangeData (onChangeData (handleDocumentChanged s text).1).1).2.isSome = true := by
  intro s text
  have hsup : (handleDocumentChanged s text).1.suppressNextDataChangeEvent = true := by
    unfold handleDocumentChanged
    rw [setEditorContent_suppress_preserved]
  refine ⟨?_, ?_, ?_⟩
  · simp [onChangeData, hsup]
  · simp [onChangeData, hsup]
  · simp [onChangeData, hsup]

/-- Claim C3: a `documentChanged` message whose text equals the already
initialized editor's current data fires no `change:data` notification, yet
leaves `suppressNextDataChangeEvent` set; the next `change:data` — here one
caused by a genuine user edit — is then consumed without posting any
`webviewChanged` message, so that user edit's outgoing emission is lost. -/
theorem c3_lost_user_edit : ∀ (sup dirty : Bool) (sel u : Nat) (sd : Option String)
    (data userText : String),
    (handleDocumentChanged ⟨sup, true, data, sel, sd, u, dirty⟩ data).2 = false
    ∧ (handleDocumentChanged
        ⟨sup, true, data, sel, sd, u, dirty⟩ data).1.suppressNextDataChangeEvent = true
    ∧ (onChangeData (applyUserEdit
        (handleDocumentChanged ⟨sup, true, data, sel, sd, u, dirty⟩ data).1 userText)).2
        = none := by
  intro sup dirty sel u sd data userText
  refine ⟨?_, ?_, ?_⟩ <;>
    simp [handleDocumentChanged, setEditorContent, compareThenReplace, applyUserEdit,
      onChangeData]

/-- Claim C4: a non-first `applyIncoming` whose text equals the model's
current materialized text performs no structural replacement (no data
change, no undo-history growth, no `change:data` event) and leaves the
selection unchanged; only the `savedData` bookkeeping runs. -/
theorem c4_noop_sync : ∀ (sup dirty : Bool) (sel u : Nat) (sd : Option String)
    (data : String),
    setEditorContent ⟨sup, true, data, sel, sd, u, dirty⟩ data
      = (⟨sup, true, data, sel, some data, u, dirty⟩, false) := by
  intro sup dirty sel u sd data
  simp [setEditorContent, compareThenReplace]

/-- Claim C5: the very first `applyIncoming` on a freshly created model (no
undo entries yet) performs a raw structural load — direct `setData`, no
selection capture/restore, no diff-preserving update — after which the undo
history has exactly one entry; and every call on an initialized model takes
the compare-then-replace path instead. -/
theorem c5_first_load : (∀ (sup dirty : Bool) (sel : Nat) (sd : Option String)
      (d0 text : String),
      setEditorContent ⟨sup, false, d0, sel, sd, 0, dirty⟩ text
        = (⟨sup, true, text, sel, sd, 1, dirty⟩, true))
    ∧ (∀ (s : WV) (text : String), s.initializedFlag = true →
        setEditorContent s text = compareThenReplace s text) := by
  constructor
  · intro sup dirty sel sd d0 text
    simp [setEditorContent, rawLoad]
  · intro s text h
    simp [setEditorContent, h]

/-- Witness for C5 at concrete inputs. -/
theorem c5_first_load_witness :
    setEditorContent ⟨false, false, "", 0, none, 0, false⟩ "hello"
      = (⟨false, true, "hello", 0, none, 1, false⟩, true)
    ∧ setEditorContent ⟨false, true, "a", 0, none, 1, false⟩ "b"
      = compareThenReplace ⟨false, true, "a", 0, none, 1, false⟩ "b" :=
  ⟨c5_first_load.1 false false 0 none "" "hello",
   c5_first_load.2 ⟨false, true, "a", 0, none, 1, false⟩ "b" rfl⟩

/-- Claim C6: for every post-replacement document state, the selection
fallback never throws, and whenever the document has at least one top-level
element the cursor is placed immediately after the last one (on a root with
zero children, `getChild(-1)` yields null and the engine clears the
selection instead — still without throwing). -/
theorem c6_selection_fallback : ∀ (children : List String),
    selectionFallback children
      = Except.ok (match children.getLast? with
          | some e => SelPlacement.afterElem e
          | none => SelPlacement.cleared) := by
  intro children
  cases children with
  | nil => rfl
  | cons a as =>
    unfold selectionFallback getChildAt setSelectionAfter
    have hlen : ((a :: as).length : Int) - 1 = (as.length : Int) := by
      simp
    rw [hlen]
    have hnonneg : ¬ ((as.length : Int) < 0) := by omega
    rw [if_neg hnonneg]
    simp [List.getLast?_eq_getElem?]

/-- Claim C8: the column count is fixed at the maximum number of cells over
all rows, shorter rows being padded with empty cells rather than dropped
(every emitted row carries exactly `maxColumns` cells); in particular the
3-cell/2-cell table `A,B,C / D,E` emits row 1 as `| D | E |  |` — a
trailing empty cell between pipes, never a placeholder character. -/
theorem c8_ragged_rows :
    (∀ (maxColumns : Nat) (row : List String),
      (padRow maxColumns row).length = maxColumns)
    ∧ convertTableToMarkdown [["A", "B", "C"], ["D", "E"]]
        = "\n| A | B | C |\n| --- | --- | --- |\n| D | E |  |\n" := by
  constructor
  · intro maxColumns row
    simp [padRow]
  · rfl

/-- Claim C9: `htmlTableToMarkdown` returns any input containing no HTML
table markup unchanged (identity); consequently, whenever the first pass
yields output with no tables, a second pass is the identity on it
(idempotence). -/
theorem c9_identity_idempotence :
    (∀ x : String, containsSub x "<table" = false → htmlTableToMarkdown x = x)
    ∧ (∀ x : String, containsSub (htmlTableToMarkdown x) "<table" = false →
        htmlTableToMarkdown (htmlTableToMarkdown x) = htmlTableToMarkdown x) := by
  have hid : ∀ x : String, containsSub x "<table" = false → htmlTableToMarkdown x = x := by
    intro x h
    unfold htmlTableToMarkdown
    split
    · rfl
    · simp [h]
  exact ⟨hid, fun x h => hid _ h⟩

/-- Witness for C9 at a concrete table-free input. -/
theorem c9_identity_idempotence_witness :
    htmlTableToMarkdown "hello" = "hello"
    ∧ htmlTableToMarkdown (htmlTableToMarkdown "hello") = htmlTableToMarkdown "hello" :=
  ⟨c9_identity_idempotence.1 "hello" (by decide),
   c9_identity_idempotence.2 "hello" (by decide)⟩

/-- Claim C7, counterexample: cursor one character before the region's end
(inside the tolerance window, and with nothing but whitespace — a lone
newline — remaining), next sibling present; the handler does not exit and
falls through to the default key behavior, because the source additionally
requires that no newline remain between the cursor and the region's end. -/
theorem c7_boundary_exit_counterexample : ¬ claimC7Statement := by
  intro h
  have h2 := h ⟨4, 0, 5, "\n", ["codeBlock", "paragraph"], 0⟩ (by decide) (by decide)
  exact absurd h2 (by decide)

/-- Claim C7, amended: for a downward-navigation key with the cursor inside
the region or at/past its end, the handler exits when the cursor is at or
past the region's end, or else when no newline remains between the cursor
and the region's end and (the cursor is within the 3-character tolerance
window or only whitespace remains); on exit it relocates the cursor to
offset 0 of the next sibling when one exists, else inserts a new empty
paragraph after the region and places the cursor in it, consuming the
event. -/
theorem c7_boundary_exit_amended : ∀ c : ArrowDownInput,
    ((c.blockStart < c.posOffset ∧ c.posOffset < c.blockEnd) ∨ c.blockEnd ≤ c.posOffset) →
    (c.blockEnd ≤ c.posOffset
      ∨ (c.textAfter.toList.contains '\n' = false
          ∧ (c.blockEnd - c.posOffset ≤ 3 ∨ jsTrim c.textAfter = ""))) →
    arrowDownHandler c =
      (if 0 ≤ c.codeBlockIndex ∧ c.codeBlockIndex < (c.rootChildren.length : Int) - 1 then
        ADResult.moveToNext (c.rootChildren.getD (c.codeBlockIndex + 1).toNat "") 0
      else ADResult.insertParagraphAfter) := by
  intro c hin hcond
  have hexit : (if c.blockEnd ≤ c.posOffset ∨ c.blockEnd - c.posOffset ≤ 0 then
      true
    else
      (!(c.textAfter.toList.contains '\n'))
        && (decide (c.blockEnd - c.posOffset ≤ 3)
            || decide (jsTrim c.textAfter = ""))) = true := by
    rcases hcond with h | ⟨h1, h2⟩
    · rw [if_pos (Or.inl h)]
    · by_cases hend : c.blockEnd ≤ c.posOffset ∨ c.blockEnd - c.posOffset ≤ 0
      · rw [if_pos hend]
      · rw [if_neg hend, h1]
        rcases h2 with h2 | h2 <;> rw [decide_eq_true h2] <;> simp
  unfold arrowDownHandler
  rw [if_pos hin, hexit, if_pos rfl]

/-- Witness for C7 amended: cursor at the region's end with a next sibling
present — the cursor moves to offset 0 of that sibling. -/
theorem c7_boundary_exit_witness :
    arrowDownHandler ⟨5, 0, 5, "", ["codeBlock", "paragraph"], 0⟩
      = ADResult.moveToNext "paragraph" 0 := by
  have h := c7_boundary_exit_amended ⟨5, 0, 5, "", ["codeBlock", "paragraph"], 0⟩
    (by decide) (by decide)
  exact h.trans (by decide)

/-- Claim C10: calling `updateTextDocument` with empty (falsy) outgoing text
applies no edit, leaves the buffer content entirely unchanged, and resets the
in-flight flag — so deleting all content in the rich editor is never
propagated to the file. -/
theorem c10_empty_text_guard : ∀ (docText : String) (eol : Nat) (flag : Bool),
    updateTextDocument docText eol "" flag = (docText, false, false) := by
  intro docText eol flag
  simp [updateTextDocument]
